import Mathlib

/-!
Shallow embedding of HotPotatoC/snowflake (snowflake.go) and proofs of the
specification claims.

Machine integers are modelled explicitly: a Go uint64 value is a natural
number below 2 ^ 64, a Go int64 value is an integer in [-2 ^ 63, 2 ^ 63),
and every Go operation that can overflow is wrapped accordingly.

The clock (msSinceEpoch, snowflake.go line 215) is external input: each
NextID call receives the reading `now` taken at its single msSinceEpoch
call, and a reading `wait` standing for the value returned by
waitUntilNextMs (line 206) in the sequence-exhaustion branch.  The loop
in waitUntilNextMs returns the first clock reading strictly greater than
its argument, which is where the hypothesis `elapsedTime < wait` used in
the theorems below comes from.
-/

namespace Snowflake

/-- Bit-layout constants, snowflake.go lines 9-15. -/
def discriminatorBits : Nat := 10

/-- Width of the sequence field, snowflake.go line 11. -/
def sequenceBits : Nat := 12

/-- Maximum value of the 10-bit discriminator field, snowflake.go line 12. -/
def maxDiscriminatorBits : Nat := 0x3FF

/-- Maximum value of each 5-bit discriminator half-field, snowflake.go line 13. -/
def maxDiscriminatorHalfBits : Nat := 0x1F

/-- Maximum value of the 12-bit sequence field, snowflake.go line 14. -/
def maxSeqBits : Nat := 0xFFF

/-- Reduction of an unbounded integer to the int64 value with the same low
64 bits, i.e. the result an overflowing Go int64 operation stores. -/
def wrap64 (x : Int) : Int := (x + 2 ^ 63) % 2 ^ 64 - 2 ^ 63

/-- Go conversion uint64(x) of an int64 x: the two's-complement bit pattern
read as an unsigned number. -/
def uint64OfInt64 (x : Int) : Nat := (x % 2 ^ 64).toNat

/-- Go conversion int64(x) (and int(x) on a 64-bit platform) of a uint64 x:
the same bit pattern read as a signed number. -/
def int64OfUInt64 (x : Nat) : Int := if x < 2 ^ 63 then (x : Int) else (x : Int) - 2 ^ 64

/-- Go left shift of an int64 by a constant, with two's-complement overflow. -/
def int64Shl (x : Int) (n : Nat) : Int := wrap64 (x * 2 ^ n)

/-- Go left shift of a uint64 by a constant, modulo 2 ^ 64. -/
def uint64Shl (x : Nat) (n : Nat) : Nat := (x <<< n) % 2 ^ 64

/-- Go addition of two int64 values, with two's-complement overflow. -/
def int64Add (a b : Int) : Int := wrap64 (a + b)

/-- Go bitwise and of two int64 values: bitwise and of the 64-bit patterns. -/
def int64Land (a b : Int) : Int := int64OfUInt64 (uint64OfInt64 a &&& uint64OfInt64 b)

/-- Generator state, struct ID of snowflake.go lines 54-61.  The sync.Mutex
field carries no data (it only serialises calls, which the step function
models by construction).  discriminator, sequence and lastID are uint64
fields, elapsedTime is int64. -/
structure ID where
  discriminator : Nat
  sequence : Nat
  elapsedTime : Int
  lastID : Nat

/-- Constructor New, snowflake.go lines 63-66.  Go zero-initialises the
fields not listed in the composite literal. -/
def New (discriminator : Nat) : ID :=
  { discriminator := discriminator, sequence := 0, elapsedTime := 0, lastID := 0 }

/-- Packing step of ID.NextID, snowflake.go lines 94-103: the locals
timestampSegment, discriminatorSegment and sequenceSegment, the reset of
discriminatorSegment to 0 when the discriminator exceeds the 10-bit
maximum, and the final bitwise or. -/
def encodeID (elapsedTime : Int) (discriminator sequence : Nat) : Nat :=
  let timestampSegment := uint64OfInt64 (int64Shl elapsedTime (sequenceBits + discriminatorBits))
  let discriminatorSegment := uint64Shl discriminator sequenceBits
  let sequenceSegment := sequence
  let discriminatorSegment := if discriminator > maxDiscriminatorBits then 0 else discriminatorSegment
  timestampSegment ||| discriminatorSegment ||| sequenceSegment

/-- One call of ID.NextID, snowflake.go lines 73-104, as a function of the
state and of the clock readings it consumes: `now` is the msSinceEpoch
reading of line 77 and `wait` the value waitUntilNextMs returns on line 86
(consulted only when the incremented sequence wraps to 0).  Returns the
emitted identifier and the updated state. -/
def nextID (id : ID) (now wait : Int) : Nat × ID :=
  let nowSinceEpoch := now
  let p :=
    if nowSinceEpoch = id.elapsedTime then
      let sequence := (id.sequence + 1) &&& maxSeqBits
      if sequence = 0 then (sequence, wait) else (sequence, nowSinceEpoch)
    else (0, nowSinceEpoch)
  (encodeID p.2 id.discriminator p.1,
   { id with sequence := p.1, elapsedTime := p.2 })

/-- Parsed representation SID, snowflake.go lines 106-114. -/
structure SID where
  Timestamp : Int
  Sequence : Nat
  Discriminator : Nat

/-- Decoder getDiscriminant, snowflake.go lines 220-222. -/
def getDiscriminant (id : Nat) : Nat := (id >>> sequenceBits) &&& maxDiscriminatorBits

/-- Decoder getFirstDiscriminant, snowflake.go lines 225-227. -/
def getFirstDiscriminant (id : Nat) : Nat := (id >>> sequenceBits) &&& maxDiscriminatorHalfBits

/-- Decoder getSecondDiscriminant, snowflake.go lines 230-232. -/
def getSecondDiscriminant (id : Nat) : Nat :=
  (id >>> (sequenceBits + discriminatorBits / 2)) &&& maxDiscriminatorHalfBits

/-- Decoder getTimestamp, snowflake.go lines 235-237.  The mutable global
epoch enters only through its millisecond value epoch.UnixNano() / 1e6,
passed here as the parameter epochMs. -/
def getTimestamp (epochMs : Int) (id : Nat) : Int :=
  int64Add (int64OfUInt64 (id >>> (sequenceBits + discriminatorBits))) epochMs

/-- Decoder getSequence, snowflake.go line 240: uint64(int(id) & maxSeqBits). -/
def getSequence (id : Nat) : Nat :=
  uint64OfInt64 (int64Land (int64OfUInt64 id) (maxSeqBits : Int))

/-- Parse, snowflake.go lines 116-123. -/
def Parse (epochMs : Int) (sid : Nat) : SID :=
  { Timestamp := getTimestamp epochMs sid
    Sequence := getSequence sid
    Discriminator := getDiscriminant sid }

/-- Dual-field generator state, struct ID2 of snowflake.go lines 125-132. -/
structure ID2 where
  discriminator1 : Nat
  discriminator2 : Nat
  sequence : Nat
  elapsedTime : Int

/-- Constructor New2, snowflake.go lines 134-137. -/
def New2 (discriminator1 discriminator2 : Nat) : ID2 :=
  { discriminator1 := discriminator1, discriminator2 := discriminator2
    sequence := 0, elapsedTime := 0 }

/-- Packing step of ID2.NextID, snowflake.go lines 166-180. -/
def encodeID2 (elapsedTime : Int) (discriminator1 discriminator2 sequence : Nat) : Nat :=
  let timestampSegment := uint64OfInt64 (int64Shl elapsedTime (sequenceBits + discriminatorBits))
  let discriminator1Segment := uint64Shl discriminator1 sequenceBits
  let discriminator2Segment := uint64Shl discriminator2 (sequenceBits + discriminatorBits / 2)
  let sequenceSegment := sequence
  let discriminator1Segment :=
    if discriminator1 > maxDiscriminatorHalfBits then 0 else discriminator1Segment
  let discriminator2Segment :=
    if discriminator2 > maxDiscriminatorHalfBits then 0 else discriminator2Segment
  timestampSegment ||| discriminator2Segment ||| discriminator1Segment ||| sequenceSegment

/-- One call of ID2.NextID, snowflake.go lines 145-181, with the same clock
convention as nextID. -/
def nextID2 (id : ID2) (now wait : Int) : Nat × ID2 :=
  let nowSinceEpoch := now
  let p :=
    if nowSinceEpoch = id.elapsedTime then
      let sequence := (id.sequence + 1) &&& maxSeqBits
      if sequence = 0 then (sequence, wait) else (sequence, nowSinceEpoch)
    else (0, nowSinceEpoch)
  (encodeID2 p.2 id.discriminator1 id.discriminator2 p.1,
   { id with sequence := p.1, elapsedTime := p.2 })

/-- Parsed representation SID2, snowflake.go lines 183-193. -/
structure SID2 where
  Timestamp : Int
  Sequence : Nat
  Discriminator1 : Nat
  Discriminator2 : Nat

/-- Parse2, snowflake.go lines 195-203. -/
def Parse2 (epochMs : Int) (sid : Nat) : SID2 :=
  { Timestamp := getTimestamp epochMs sid
    Sequence := getSequence sid
    Discriminator1 := getFirstDiscriminant sid
    Discriminator2 := getSecondDiscriminant sid }

/-- Errors of SetEpoch, snowflake.go lines 20-23. -/
inductive EpochError where
  | epochIsZero
  | epochFuture
deriving DecidableEq

/-- Millisecond value of the default epoch, snowflake.go line 18:
time.Date(2012, 3, 28, 0, 0, 0, 0, time.UTC).UnixNano() / 1e6, i.e.
2012-03-28T00:00:00 UTC expressed in milliseconds since the Unix epoch
(15427 days of 86400000 ms). -/
def defaultEpochMs : Int := 1332892800000

/-- SetEpoch, snowflake.go lines 38-52, over instants modelled as integers
(nanoseconds since January 1, year 1 UTC, so that time.Time.IsZero means
value 0 and t.After(u) means t > u; the initial e.UTC() call changes only
the display location, not the instant, and is a no-op here).  Takes the
current configured epoch and the current wall-clock reading time.Now(),
returns the error (if any) and the configured epoch afterwards. -/
def SetEpoch (epoch : Int) (now : Int) (e : Int) : Option EpochError × Int :=
  if e = 0 then (some .epochIsZero, epoch)
  else if now < e then (some .epochFuture, epoch)
  else (none, e)

/-- Sequential driver: feed a list of per-call clock readings (now, wait)
to repeated ID.NextID calls and collect the emitted identifiers. -/
def runNextID (id : ID) : List (Int × Int) → List Nat
  | [] => []
  | (n, w) :: rest =>
    let r := nextID id n w
    r.1 :: runNextID r.2 rest

/-- Sequential driver for the dual-field generator. -/
def runNextID2 (id : ID2) : List (Int × Int) → List Nat
  | [] => []
  | (n, w) :: rest =>
    let r := nextID2 id n w
    r.1 :: runNextID2 r.2 rest

/-- Well-behaved clock trace for a run of ID.NextID calls: every reading is
at least the previous reading (the generator's stored elapsedTime is always
the last reading consumed), readings fit the 42-bit range the timestamp
field can hold without overflow, and a reading returned by waitUntilNextMs
is strictly greater than its argument, as the loop guard on line 208
guarantees. -/
def goodTrace (st : ID) : List (Int × Int) → Bool
  | [] => true
  | (n, w) :: rest =>
    decide (st.elapsedTime ≤ n) && decide (n < 2 ^ 42) &&
    (if n = st.elapsedTime ∧ (st.sequence + 1) &&& maxSeqBits = 0 then
        decide (st.elapsedTime < w) && decide (w < 2 ^ 42)
      else true) &&
    goodTrace (nextID st n w).2 rest

/-- Well-behaved clock trace for a run of ID2.NextID calls. -/
def goodTrace2 (st : ID2) : List (Int × Int) → Bool
  | [] => true
  | (n, w) :: rest =>
    decide (st.elapsedTime ≤ n) && decide (n < 2 ^ 42) &&
    (if n = st.elapsedTime ∧ (st.sequence + 1) &&& maxSeqBits = 0 then
        decide (st.elapsedTime < w) && decide (w < 2 ^ 42)
      else true) &&
    goodTrace2 (nextID2 st n w).2 rest

/-- State invariant of the single-field generator: the stored elapsed time
is a non-negative value fitting the 42 bits above the shift amount, and the
sequence fits its 12-bit field.  It holds for a freshly constructed
instance and is preserved by every step under a well-behaved clock. -/
def IDInv (st : ID) : Prop :=
  0 ≤ st.elapsedTime ∧ st.elapsedTime < 2 ^ 42 ∧ st.sequence < 2 ^ 12

/-- State invariant of the dual-field generator. -/
def ID2Inv (st : ID2) : Prop :=
  0 ≤ st.elapsedTime ∧ st.elapsedTime < 2 ^ 42 ∧ st.sequence < 2 ^ 12

/-- Abstract position of a single-field generator state in the emitted
sequence: elapsed time above, sequence below. -/
def keyID (st : ID) : Nat := st.elapsedTime.toNat * 2 ^ 22 + st.sequence

/-- Abstract position of a dual-field generator state. -/
def keyID2 (st : ID2) : Nat := st.elapsedTime.toNat * 2 ^ 22 + st.sequence

/-! Arithmetic facts about the machine-integer model. -/

lemma uint64_int64_roundtrip (x : Nat) : uint64OfInt64 (int64OfUInt64 x) = x % 2 ^ 64 := by
  unfold uint64OfInt64 int64OfUInt64
  split <;> omega

lemma uint64OfInt64_lt (x : Int) : uint64OfInt64 x < 2 ^ 64 := by
  unfold uint64OfInt64
  omega

/-- The timestamp segment uint64(elapsedTime << 22) keeps the low 42 bits of
the elapsed time, shifted into the high 42 bits of the word. -/
lemma tsSegment_eq (e : Int) :
    uint64OfInt64 (int64Shl e (sequenceBits + discriminatorBits)) =
      (e % 2 ^ 42).toNat * 2 ^ 22 := by
  unfold uint64OfInt64 int64Shl wrap64 sequenceBits discriminatorBits
  omega

lemma land_maxSeq (x : Nat) : x &&& maxSeqBits = x % 2 ^ 12 := by
  simpa [maxSeqBits] using Nat.and_pow_two_sub_one_eq_mod x 12

lemma land_maxDisc (x : Nat) : x &&& maxDiscriminatorBits = x % 2 ^ 10 := by
  simpa [maxDiscriminatorBits] using Nat.and_pow_two_sub_one_eq_mod x 10

lemma land_maxHalf (x : Nat) : x &&& maxDiscriminatorHalfBits = x % 2 ^ 5 := by
  simpa [maxDiscriminatorHalfBits] using Nat.and_pow_two_sub_one_eq_mod x 5

/-- Bitwise or of the three disjoint segments of the single-field layout is
ordinary addition. -/
lemma or3_add (T dv s : Nat) (hdv : dv < 2 ^ 22) (hdv12 : dv % 2 ^ 12 = 0) (hs : s < 2 ^ 12) :
    T * 2 ^ 22 ||| dv ||| s = T * 2 ^ 22 + dv + s := by
  have h1 : T * 2 ^ 22 ||| dv = T * 2 ^ 22 + dv := by
    rw [Nat.mul_comm T (2 ^ 22)]
    exact (Nat.mul_add_lt_is_or hdv T).symm
  have h2 : T * 2 ^ 22 + dv = 2 ^ 12 * (T * 2 ^ 10 + dv / 2 ^ 12) := by omega
  have h3 : (T * 2 ^ 22 + dv) ||| s = T * 2 ^ 22 + dv + s := by
    rw [h2]
    exact (Nat.mul_add_lt_is_or hs _).symm
  rw [h1, h3]

/-- Bitwise or of the four disjoint segments of the dual-field layout is
ordinary addition. -/
lemma or4_add (T a b s : Nat) (ha : a < 2 ^ 22) (ha17 : a % 2 ^ 17 = 0)
    (hb : b < 2 ^ 17) (hb12 : b % 2 ^ 12 = 0) (hs : s < 2 ^ 12) :
    T * 2 ^ 22 ||| a ||| b ||| s = T * 2 ^ 22 + a + b + s := by
  have h1 : T * 2 ^ 22 ||| a = T * 2 ^ 22 + a := by
    rw [Nat.mul_comm T (2 ^ 22)]
    exact (Nat.mul_add_lt_is_or ha T).symm
  have h2 : T * 2 ^ 22 + a = 2 ^ 17 * (T * 2 ^ 5 + a / 2 ^ 17) := by omega
  have h3 : (T * 2 ^ 22 + a) ||| b = T * 2 ^ 22 + a + b := by
    rw [h2]
    exact (Nat.mul_add_lt_is_or hb _).symm
  have h4 : T * 2 ^ 22 + a + b = 2 ^ 12 * (T * 2 ^ 10 + a / 2 ^ 12 + b / 2 ^ 12) := by omega
  have h5 : (T * 2 ^ 22 + a + b) ||| s = T * 2 ^ 22 + a + b + s := by
    rw [h4]
    exact (Nat.mul_add_lt_is_or hs _).symm
  rw [h1, h3, h5]

/-- Closed additive form of the single-field packing, for any elapsed time
(overflow included: only its low 42 bits reach the word). -/
lemma encodeID_eq (e : Int) (d s : Nat) (hs : s < 2 ^ 12) :
    encodeID e d s =
      (e % 2 ^ 42).toNat * 2 ^ 22 +
        (if d > maxDiscriminatorBits then 0 else d * 2 ^ 12) + s := by
  simp only [encodeID, tsSegment_eq]
  by_cases hd : d > maxDiscriminatorBits
  · rw [if_pos hd, if_pos hd]
    exact or3_add _ 0 s (by norm_num) (by norm_num) hs
  · rw [if_neg hd, if_neg hd]
    have hd' : d ≤ 1023 := by simpa [maxDiscriminatorBits] using hd
    have hshl : uint64Shl d sequenceBits = d * 2 ^ 12 := by
      unfold uint64Shl sequenceBits
      rw [Nat.shiftLeft_eq]
      exact Nat.mod_eq_of_lt (by omega)
    rw [hshl]
    exact or3_add _ _ _ (by omega) (by omega) hs

/-- Closed additive form of the dual-field packing. -/
lemma encodeID2_eq (e : Int) (d1 d2 s : Nat) (hs : s < 2 ^ 12) :
    encodeID2 e d1 d2 s =
      (e % 2 ^ 42).toNat * 2 ^ 22 +
        (if d2 > maxDiscriminatorHalfBits then 0 else d2 * 2 ^ 17) +
        (if d1 > maxDiscriminatorHalfBits then 0 else d1 * 2 ^ 12) + s := by
  simp only [encodeID2, tsSegment_eq]
  have e1 : uint64Shl d1 sequenceBits = (d1 <<< 12) % 2 ^ 64 := rfl
  have e2 : uint64Shl d2 (sequenceBits + discriminatorBits / 2) = (d2 <<< 17) % 2 ^ 64 := rfl
  rw [e1, e2]
  by_cases h2 : d2 > maxDiscriminatorHalfBits <;> by_cases h1 : d1 > maxDiscriminatorHalfBits
  · rw [if_pos h2, if_pos h2, if_pos h1, if_pos h1]
    exact or4_add _ 0 0 s (by norm_num) (by norm_num) (by norm_num) (by norm_num) hs
  · rw [if_pos h2, if_pos h2, if_neg h1, if_neg h1]
    have h1' : d1 ≤ 31 := by simpa [maxDiscriminatorHalfBits] using h1
    have hshl : (d1 <<< 12) % 2 ^ 64 = d1 * 2 ^ 12 := by
      rw [Nat.shiftLeft_eq]
      exact Nat.mod_eq_of_lt (by omega)
    rw [hshl]
    exact or4_add _ 0 _ _ (by norm_num) (by norm_num) (by omega) (by omega) hs
  · rw [if_pos h1, if_pos h1, if_neg h2, if_neg h2]
    have h2' : d2 ≤ 31 := by simpa [maxDiscriminatorHalfBits] using h2
    have hshl : (d2 <<< 17) % 2 ^ 64 = d2 * 2 ^ 17 := by
      rw [Nat.shiftLeft_eq]
      exact Nat.mod_eq_of_lt (by omega)
    rw [hshl]
    exact or4_add _ _ 0 _ (by omega) (by omega) (by norm_num) (by norm_num) hs
  · rw [if_neg h2, if_neg h2, if_neg h1, if_neg h1]
    have h1' : d1 ≤ 31 := by simpa [maxDiscriminatorHalfBits] using h1
    have h2' : d2 ≤ 31 := by simpa [maxDiscriminatorHalfBits] using h2
    have hshl1 : (d1 <<< 12) % 2 ^ 64 = d1 * 2 ^ 12 := by
      rw [Nat.shiftLeft_eq]
      exact Nat.mod_eq_of_lt (by omega)
    have hshl2 : (d2 <<< 17) % 2 ^ 64 = d2 * 2 ^ 17 := by
      rw [Nat.shiftLeft_eq]
      exact Nat.mod_eq_of_lt (by omega)
    rw [hshl1, hshl2]
    exact or4_add _ _ _ _ (by omega) (by omega) (by omega) (by omega) hs

/-! Behaviour of the decoders. -/

lemma uint64OfInt64_maxSeq : uint64OfInt64 ((maxSeqBits : Nat) : Int) = maxSeqBits := by decide

/-- The int round-trip in getSequence reduces to taking the low 12 bits. -/
lemma getSequence_eq (id : Nat) : getSequence id = id % 2 ^ 12 := by
  unfold getSequence int64Land
  rw [uint64_int64_roundtrip, uint64OfInt64_maxSeq, land_maxSeq, uint64_int64_roundtrip]
  omega

lemma getSequence_encodeID (e : Int) (d s : Nat) (hs : s < 2 ^ 12) :
    getSequence (encodeID e d s) = s := by
  rw [getSequence_eq, encodeID_eq e d s hs]
  by_cases hd : d > maxDiscriminatorBits
  · rw [if_pos hd]
    omega
  · rw [if_neg hd]
    omega

lemma getSequence_encodeID2 (e : Int) (d1 d2 s : Nat) (hs : s < 2 ^ 12) :
    getSequence (encodeID2 e d1 d2 s) = s := by
  rw [getSequence_eq, encodeID2_eq e d1 d2 s hs]
  by_cases h2 : d2 > maxDiscriminatorHalfBits <;> by_cases h1 : d1 > maxDiscriminatorHalfBits <;>
    simp only [if_pos, if_neg, h1, h2, if_true, if_false] <;> omega

lemma getDiscriminant_encodeID (e : Int) (d s : Nat) (hs : s < 2 ^ 12) :
    getDiscriminant (encodeID e d s) = if d > maxDiscriminatorBits then 0 else d := by
  unfold getDiscriminant sequenceBits
  rw [land_maxDisc, encodeID_eq e d s hs, Nat.shiftRight_eq_div_pow]
  by_cases hd : d > maxDiscriminatorBits
  · rw [if_pos hd, if_pos hd]
    omega
  · have hd' : d ≤ 1023 := by simpa [maxDiscriminatorBits] using hd
    rw [if_neg hd, if_neg hd]
    omega

lemma getFirstDiscriminant_encodeID2 (e : Int) (d1 d2 s : Nat) (hs : s < 2 ^ 12) :
    getFirstDiscriminant (encodeID2 e d1 d2 s) =
      if d1 > maxDiscriminatorHalfBits then 0 else d1 := by
  unfold getFirstDiscriminant sequenceBits
  rw [land_maxHalf, encodeID2_eq e d1 d2 s hs, Nat.shiftRight_eq_div_pow]
  by_cases h2 : d2 > maxDiscriminatorHalfBits <;> by_cases h1 : d1 > maxDiscriminatorHalfBits
  · rw [if_pos h2, if_pos h1, if_pos h1]
    omega
  · have h1' : d1 ≤ 31 := by simpa [maxDiscriminatorHalfBits] using h1
    rw [if_pos h2, if_neg h1, if_neg h1]
    omega
  · have h2' : d2 ≤ 31 := by simpa [maxDiscriminatorHalfBits] using h2
    rw [if_neg h2, if_pos h1, if_pos h1]
    omega
  · have h1' : d1 ≤ 31 := by simpa [maxDiscriminatorHalfBits] using h1
    have h2' : d2 ≤ 31 := by simpa [maxDiscriminatorHalfBits] using h2
    rw [if_neg h2, if_neg h1, if_neg h1]
    omega

lemma getSecondDiscriminant_encodeID2 (e : Int) (d1 d2 s : Nat) (hs : s < 2 ^ 12) :
    getSecondDiscriminant (encodeID2 e d1 d2 s) =
      if d2 > maxDiscriminatorHalfBits then 0 else d2 := by
  unfold getSecondDiscriminant sequenceBits discriminatorBits
  rw [land_maxHalf, encodeID2_eq e d1 d2 s hs, Nat.shiftRight_eq_div_pow]
  by_cases h2 : d2 > maxDiscriminatorHalfBits <;> by_cases h1 : d1 > maxDiscriminatorHalfBits
  · rw [if_pos h2, if_pos h2, if_pos h1]
    omega
  · have h1' : d1 ≤ 31 := by simpa [maxDiscriminatorHalfBits] using h1
    rw [if_pos h2, if_pos h2, if_neg h1]
    omega
  · have h2' : d2 ≤ 31 := by simpa [maxDiscriminatorHalfBits] using h2
    rw [if_neg h2, if_neg h2, if_pos h1]
    omega
  · have h1' : d1 ≤ 31 := by simpa [maxDiscriminatorHalfBits] using h1
    have h2' : d2 ≤ 31 := by simpa [maxDiscriminatorHalfBits] using h2
    rw [if_neg h2, if_neg h2, if_neg h1]
    omega

/-! Case analysis of one NextID step. -/

/-- The three control paths of ID.NextID: sequence exhaustion within the
same millisecond (waitUntilNextMs consulted), same millisecond with room in
the sequence, and a clock value different from the stored one. -/
lemma nextID_cases (st : ID) (n w : Int) :
    (n = st.elapsedTime ∧ (st.sequence + 1) &&& maxSeqBits = 0 ∧
        nextID st n w = (encodeID w st.discriminator 0,
          { st with sequence := 0, elapsedTime := w })) ∨
    (n = st.elapsedTime ∧ (st.sequence + 1) &&& maxSeqBits ≠ 0 ∧
        nextID st n w = (encodeID n st.discriminator ((st.sequence + 1) &&& maxSeqBits),
          { st with sequence := (st.sequence + 1) &&& maxSeqBits, elapsedTime := n })) ∨
    (n ≠ st.elapsedTime ∧
        nextID st n w = (encodeID n st.discriminator 0,
          { st with sequence := 0, elapsedTime := n })) := by
  by_cases h1 : n = st.elapsedTime
  · by_cases h2 : (st.sequence + 1) &&& maxSeqBits = 0
    · exact Or.inl ⟨h1, h2, by simp [nextID, h1, h2]⟩
    · exact Or.inr (Or.inl ⟨h1, h2, by simp [nextID, h1, h2]⟩)
  · exact Or.inr (Or.inr ⟨h1, by simp [nextID, h1]⟩)

/-- Same case analysis for ID2.NextID. -/
lemma nextID2_cases (st : ID2) (n w : Int) :
    (n = st.elapsedTime ∧ (st.sequence + 1) &&& maxSeqBits = 0 ∧
        nextID2 st n w = (encodeID2 w st.discriminator1 st.discriminator2 0,
          { st with sequence := 0, elapsedTime := w })) ∨
    (n = st.elapsedTime ∧ (st.sequence + 1) &&& maxSeqBits ≠ 0 ∧
        nextID2 st n w = (encodeID2 n st.discriminator1 st.discriminator2
            ((st.sequence + 1) &&& maxSeqBits),
          { st with sequence := (st.sequence + 1) &&& maxSeqBits, elapsedTime := n })) ∨
    (n ≠ st.elapsedTime ∧
        nextID2 st n w = (encodeID2 n st.discriminator1 st.discriminator2 0,
          { st with sequence := 0, elapsedTime := n })) := by
  by_cases h1 : n = st.elapsedTime
  · by_cases h2 : (st.sequence + 1) &&& maxSeqBits = 0
    · exact Or.inl ⟨h1, h2, by simp [nextID2, h1, h2]⟩
    · exact Or.inr (Or.inl ⟨h1, h2, by simp [nextID2, h1, h2]⟩)
  · exact Or.inr (Or.inr ⟨h1, by simp [nextID2, h1]⟩)

/-- The emitted identifier is always the packing of the updated state's
fields with the instance's fixed discriminator. -/
lemma nextID_out (st : ID) (n w : Int) :
    (nextID st n w).1 =
      encodeID (nextID st n w).2.elapsedTime st.discriminator (nextID st n w).2.sequence := by
  rcases nextID_cases st n w with ⟨_, _, h⟩ | ⟨_, _, h⟩ | ⟨_, h⟩ <;> rw [h]

lemma nextID2_out (st : ID2) (n w : Int) :
    (nextID2 st n w).1 = encodeID2 (nextID2 st n w).2.elapsedTime
      st.discriminator1 st.discriminator2 (nextID2 st n w).2.sequence := by
  rcases nextID2_cases st n w with ⟨_, _, h⟩ | ⟨_, _, h⟩ | ⟨_, h⟩ <;> rw [h]

/-- NextID never changes the discriminator bound at construction. -/
lemma nextID_disc (st : ID) (n w : Int) :
    (nextID st n w).2.discriminator = st.discriminator := by
  rcases nextID_cases st n w with ⟨_, _, h⟩ | ⟨_, _, h⟩ | ⟨_, h⟩ <;> rw [h]

lemma nextID2_disc (st : ID2) (n w : Int) :
    (nextID2 st n w).2.discriminator1 = st.discriminator1 ∧
      (nextID2 st n w).2.discriminator2 = st.discriminator2 := by
  rcases nextID2_cases st n w with ⟨_, _, h⟩ | ⟨_, _, h⟩ | ⟨_, h⟩ <;> rw [h] <;> exact ⟨rfl, rfl⟩

/-- The updated sequence always fits the 12-bit field. -/
lemma nextID_seq_lt (st : ID) (n w : Int) : (nextID st n w).2.sequence < 2 ^ 12 := by
  rcases nextID_cases st n w with ⟨_, _, h⟩ | ⟨_, _, h⟩ | ⟨_, h⟩ <;> rw [h]
  · show (0 : Nat) < 2 ^ 12
    norm_num
  · show (st.sequence + 1) &&& maxSeqBits < 2 ^ 12
    rw [land_maxSeq]
    omega
  · show (0 : Nat) < 2 ^ 12
    norm_num

lemma nextID2_seq_lt (st : ID2) (n w : Int) : (nextID2 st n w).2.sequence < 2 ^ 12 := by
  rcases nextID2_cases st n w with ⟨_, _, h⟩ | ⟨_, _, h⟩ | ⟨_, h⟩ <;> rw [h]
  · show (0 : Nat) < 2 ^ 12
    norm_num
  · show (st.sequence + 1) &&& maxSeqBits < 2 ^ 12
    rw [land_maxSeq]
    omega
  · show (0 : Nat) < 2 ^ 12
    norm_num

/-! Monotonicity of a run of NextID calls. -/

/-- Under the invariant, the packed identifier is the state's key plus the
constant discriminator segment. -/
lemma encodeID_key (e : Int) (d s : Nat) (h0 : 0 ≤ e) (h1 : e < 2 ^ 42) (hs : s < 2 ^ 12) :
    encodeID e d s =
      (e.toNat * 2 ^ 22 + s) + (if d > maxDiscriminatorBits then 0 else d * 2 ^ 12) := by
  rw [encodeID_eq e d s hs]
  have h : e % 2 ^ 42 = e := by omega
  rw [h]
  split <;> omega

lemma encodeID2_key (e : Int) (d1 d2 s : Nat) (h0 : 0 ≤ e) (h1 : e < 2 ^ 42) (hs : s < 2 ^ 12) :
    encodeID2 e d1 d2 s =
      (e.toNat * 2 ^ 22 + s) +
        ((if d2 > maxDiscriminatorHalfBits then 0 else d2 * 2 ^ 17) +
          (if d1 > maxDiscriminatorHalfBits then 0 else d1 * 2 ^ 12)) := by
  rw [encodeID2_eq e d1 d2 s hs]
  have h : e % 2 ^ 42 = e := by omega
  rw [h]
  split <;> split <;> omega

/-- One step under a well-behaved clock preserves the invariant and moves
the state key strictly upward. -/
lemma nextID_step (st : ID) (n w : Int) (hinv : IDInv st)
    (hn : st.elapsedTime ≤ n) (hn2 : n < 2 ^ 42)
    (hw : n = st.elapsedTime → (st.sequence + 1) &&& maxSeqBits = 0 →
      st.elapsedTime < w ∧ w < 2 ^ 42) :
    IDInv (nextID st n w).2 ∧ keyID st < keyID (nextID st n w).2 := by
  obtain ⟨h0, h1, h2⟩ := hinv
  rcases nextID_cases st n w with ⟨he, hz, hrw⟩ | ⟨he, hz, hrw⟩ | ⟨he, hrw⟩ <;> rw [hrw]
  · obtain ⟨hw1, hw2⟩ := hw he hz
    refine ⟨⟨?_, ?_, ?_⟩, ?_⟩
    · show (0 : Int) ≤ w
      omega
    · show w < 2 ^ 42
      exact hw2
    · show (0 : Nat) < 2 ^ 12
      norm_num
    · show st.elapsedTime.toNat * 2 ^ 22 + st.sequence < w.toNat * 2 ^ 22 + 0
      omega
  · subst he
    rw [land_maxSeq] at hz
    refine ⟨⟨h0, h1, ?_⟩, ?_⟩
    · show (st.sequence + 1) &&& maxSeqBits < 2 ^ 12
      rw [land_maxSeq]
      omega
    · show st.elapsedTime.toNat * 2 ^ 22 + st.sequence <
        st.elapsedTime.toNat * 2 ^ 22 + ((st.sequence + 1) &&& maxSeqBits)
      rw [land_maxSeq]
      omega
  · refine ⟨⟨?_, ?_, ?_⟩, ?_⟩
    · show (0 : Int) ≤ n
      omega
    · show n < 2 ^ 42
      exact hn2
    · show (0 : Nat) < 2 ^ 12
      norm_num
    · show st.elapsedTime.toNat * 2 ^ 22 + st.sequence < n.toNat * 2 ^ 22 + 0
      omega

lemma nextID2_step (st : ID2) (n w : Int) (hinv : ID2Inv st)
    (hn : st.elapsedTime ≤ n) (hn2 : n < 2 ^ 42)
    (hw : n = st.elapsedTime → (st.sequence + 1) &&& maxSeqBits = 0 →
      st.elapsedTime < w ∧ w < 2 ^ 42) :
    ID2Inv (nextID2 st n w).2 ∧ keyID2 st < keyID2 (nextID2 st n w).2 := by
  obtain ⟨h0, h1, h2⟩ := hinv
  rcases nextID2_cases st n w with ⟨he, hz, hrw⟩ | ⟨he, hz, hrw⟩ | ⟨he, hrw⟩ <;> rw [hrw]
  · obtain ⟨hw1, hw2⟩ := hw he hz
    refine ⟨⟨?_, ?_, ?_⟩, ?_⟩
    · show (0 : Int) ≤ w
      omega
    · show w < 2 ^ 42
      exact hw2
    · show (0 : Nat) < 2 ^ 12
      norm_num
    · show st.elapsedTime.toNat * 2 ^ 22 + st.sequence < w.toNat * 2 ^ 22 + 0
      omega
  · subst he
    rw [land_maxSeq] at hz
    refine ⟨⟨h0, h1, ?_⟩, ?_⟩
    · show (st.sequence + 1) &&& maxSeqBits < 2 ^ 12
      rw [land_maxSeq]
      omega
    · show st.elapsedTime.toNat * 2 ^ 22 + st.sequence <
        st.elapsedTime.toNat * 2 ^ 22 + ((st.sequence + 1) &&& maxSeqBits)
      rw [land_maxSeq]
      omega
  · refine ⟨⟨?_, ?_, ?_⟩, ?_⟩
    · show (0 : Int) ≤ n
      omega
    · show n < 2 ^ 42
      exact hn2
    · show (0 : Nat) < 2 ^ 12
      norm_num
    · show st.elapsedTime.toNat * 2 ^ 22 + st.sequence < n.toNat * 2 ^ 22 + 0
      omega

/-- One step emits an identifier strictly greater than the packing of the
pre-step state. -/
lemma nextID_enc_lt (st : ID) (n w : Int) (hinv : IDInv st)
    (hn : st.elapsedTime ≤ n) (hn2 : n < 2 ^ 42)
    (hw : n = st.elapsedTime → (st.sequence + 1) &&& maxSeqBits = 0 →
      st.elapsedTime < w ∧ w < 2 ^ 42) :
    encodeID st.elapsedTime st.discriminator st.sequence < (nextID st n w).1 := by
  obtain ⟨hinv2, hk⟩ := nextID_step st n w hinv hn hn2 hw
  rw [nextID_out st n w]
  rw [encodeID_key _ _ _ hinv.1 hinv.2.1 hinv.2.2,
    encodeID_key _ _ _ hinv2.1 hinv2.2.1 hinv2.2.2]
  exact Nat.add_lt_add_right hk _

lemma nextID2_enc_lt (st : ID2) (n w : Int) (hinv : ID2Inv st)
    (hn : st.elapsedTime ≤ n) (hn2 : n < 2 ^ 42)
    (hw : n = st.elapsedTime → (st.sequence + 1) &&& maxSeqBits = 0 →
      st.elapsedTime < w ∧ w < 2 ^ 42) :
    encodeID2 st.elapsedTime st.discriminator1 st.discriminator2 st.sequence <
      (nextID2 st n w).1 := by
  obtain ⟨hinv2, hk⟩ := nextID2_step st n w hinv hn hn2 hw
  rw [nextID2_out st n w]
  rw [encodeID2_key _ _ _ _ hinv.1 hinv.2.1 hinv.2.2,
    encodeID2_key _ _ _ _ hinv2.1 hinv2.2.1 hinv2.2.2]
  exact Nat.add_lt_add_right hk _

/-- Unpacking of one step of a well-behaved clock trace. -/
lemma goodTrace_cons {st : ID} {n w : Int} {rest : List (Int × Int)}
    (hg : goodTrace st ((n, w) :: rest) = true) :
    st.elapsedTime ≤ n ∧ n < 2 ^ 42 ∧
      (n = st.elapsedTime → (st.sequence + 1) &&& maxSeqBits = 0 →
        st.elapsedTime < w ∧ w < 2 ^ 42) ∧
      goodTrace (nextID st n w).2 rest = true := by
  simp only [goodTrace, Bool.and_eq_true, decide_eq_true_eq] at hg
  obtain ⟨⟨⟨hn, hn2⟩, hw⟩, hrest⟩ := hg
  refine ⟨hn, hn2, ?_, hrest⟩
  intro ha hb
  rw [if_pos ⟨ha, hb⟩] at hw
  simpa using hw

lemma goodTrace2_cons {st : ID2} {n w : Int} {rest : List (Int × Int)}
    (hg : goodTrace2 st ((n, w) :: rest) = true) :
    st.elapsedTime ≤ n ∧ n < 2 ^ 42 ∧
      (n = st.elapsedTime → (st.sequence + 1) &&& maxSeqBits = 0 →
        st.elapsedTime < w ∧ w < 2 ^ 42) ∧
      goodTrace2 (nextID2 st n w).2 rest = true := by
  simp only [goodTrace2, Bool.and_eq_true, decide_eq_true_eq] at hg
  obtain ⟨⟨⟨hn, hn2⟩, hw⟩, hrest⟩ := hg
  refine ⟨hn, hn2, ?_, hrest⟩
  intro ha hb
  rw [if_pos ⟨ha, hb⟩] at hw
  simpa using hw

/-- Every identifier emitted along a well-behaved trace is strictly greater
than the packing of the starting state. -/
lemma runNextID_lb (tr : List (Int × Int)) : ∀ st : ID, IDInv st → goodTrace st tr = true →
    ∀ x ∈ runNextID st tr,
      encodeID st.elapsedTime st.discriminator st.sequence < x := by
  induction tr with
  | nil =>
    intro st _ _ x hx
    simp [runNextID] at hx
  | cons p rest ih =>
    obtain ⟨n, w⟩ := p
    intro st hinv hg x hx
    obtain ⟨hn, hn2, hw, hrest⟩ := goodTrace_cons hg
    obtain ⟨hinv2, _⟩ := nextID_step st n w hinv hn hn2 hw
    have hlt := nextID_enc_lt st n w hinv hn hn2 hw
    simp only [runNextID, List.mem_cons] at hx
    rcases hx with rfl | hx
    · exact hlt
    · have h2 := ih (nextID st n w).2 hinv2 hrest x hx
      rw [nextID_disc st n w] at h2
      rw [nextID_out st n w] at hlt
      exact lt_trans hlt h2

lemma runNextID2_lb (tr : List (Int × Int)) : ∀ st : ID2, ID2Inv st → goodTrace2 st tr = true →
    ∀ x ∈ runNextID2 st tr,
      encodeID2 st.elapsedTime st.discriminator1 st.discriminator2 st.sequence < x := by
  induction tr with
  | nil =>
    intro st _ _ x hx
    simp [runNextID2] at hx
  | cons p rest ih =>
    obtain ⟨n, w⟩ := p
    intro st hinv hg x hx
    obtain ⟨hn, hn2, hw, hrest⟩ := goodTrace2_cons hg
    obtain ⟨hinv2, _⟩ := nextID2_step st n w hinv hn hn2 hw
    have hlt := nextID2_enc_lt st n w hinv hn hn2 hw
    simp only [runNextID2, List.mem_cons] at hx
    rcases hx with rfl | hx
    · exact hlt
    · have h2 := ih (nextID2 st n w).2 hinv2 hrest x hx
      rw [(nextID2_disc st n w).1, (nextID2_disc st n w).2] at h2
      rw [nextID2_out st n w] at hlt
      exact lt_trans hlt h2

/-- The identifiers of a well-behaved run are strictly increasing. -/
lemma runNextID_pairwise (tr : List (Int × Int)) :
    ∀ st : ID, IDInv st → goodTrace st tr = true →
      List.Pairwise (· < ·) (runNextID st tr) := by
  induction tr with
  | nil =>
    intro st _ _
    simp [runNextID]
  | cons p rest ih =>
    obtain ⟨n, w⟩ := p
    intro st hinv hg
    obtain ⟨hn, hn2, hw, hrest⟩ := goodTrace_cons hg
    obtain ⟨hinv2, _⟩ := nextID_step st n w hinv hn hn2 hw
    simp only [runNextID]
    refine List.Pairwise.cons ?_ (ih _ hinv2 hrest)
    intro y hy
    have h := runNextID_lb rest _ hinv2 hrest y hy
    rw [nextID_disc st n w] at h
    rw [nextID_out st n w]
    exact h

lemma runNextID2_pairwise (tr : List (Int × Int)) :
    ∀ st : ID2, ID2Inv st → goodTrace2 st tr = true →
      List.Pairwise (· < ·) (runNextID2 st tr) := by
  induction tr with
  | nil =>
    intro st _ _
    simp [runNextID2]
  | cons p rest ih =>
    obtain ⟨n, w⟩ := p
    intro st hinv hg
    obtain ⟨hn, hn2, hw, hrest⟩ := goodTrace2_cons hg
    obtain ⟨hinv2, _⟩ := nextID2_step st n w hinv hn hn2 hw
    simp only [runNextID2]
    refine List.Pairwise.cons ?_ (ih _ hinv2 hrest)
    intro y hy
    have h := runNextID2_lb rest _ hinv2 hrest y hy
    rw [(nextID2_disc st n w).1, (nextID2_disc st n w).2] at h
    rw [nextID2_out st n w]
    exact h

/-! Field extraction at explicit bit positions. -/

lemma ite_d_le (d : Nat) :
    (if d > maxDiscriminatorBits then 0 else d * 2 ^ 12) ≤ 1023 * 2 ^ 12 := by
  by_cases h : d > maxDiscriminatorBits
  · rw [if_pos h]
    omega
  · have : d ≤ 1023 := by simpa [maxDiscriminatorBits] using h
    rw [if_neg h]
    omega

lemma ite_d1_le (d1 : Nat) :
    (if d1 > maxDiscriminatorHalfBits then 0 else d1 * 2 ^ 12) ≤ 31 * 2 ^ 12 := by
  by_cases h : d1 > maxDiscriminatorHalfBits
  · rw [if_pos h]
    omega
  · have : d1 ≤ 31 := by simpa [maxDiscriminatorHalfBits] using h
    rw [if_neg h]
    omega

lemma ite_d2_le (d2 : Nat) :
    (if d2 > maxDiscriminatorHalfBits then 0 else d2 * 2 ^ 17) ≤ 31 * 2 ^ 17 := by
  by_cases h : d2 > maxDiscriminatorHalfBits
  · rw [if_pos h]
    omega
  · have : d2 ≤ 31 := by simpa [maxDiscriminatorHalfBits] using h
    rw [if_neg h]
    omega

/-- Bits 63..22 of a packed single-field identifier are the elapsed time. -/
lemma encodeID_ts (e : Int) (d s : Nat) (h0 : 0 ≤ e) (h1 : e < 2 ^ 42) (hs : s < 2 ^ 12) :
    (encodeID e d s >>> 22) &&& (2 ^ 42 - 1) = e.toNat := by
  rw [Nat.and_pow_two_sub_one_eq_mod, Nat.shiftRight_eq_div_pow, encodeID_eq e d s hs]
  have hK := ite_d_le d
  have h : e % 2 ^ 42 = e := by omega
  rw [h]
  omega

/-- Bits 21..12 of a packed single-field identifier are the discriminator
segment. -/
lemma encodeID_mid (e : Int) (d s : Nat) (hs : s < 2 ^ 12) :
    (encodeID e d s >>> 12) &&& (2 ^ 10 - 1) =
      (if d > maxDiscriminatorBits then 0 else d) := by
  have h := getDiscriminant_encodeID e d s hs
  unfold getDiscriminant sequenceBits at h
  rw [land_maxDisc] at h
  rw [Nat.and_pow_two_sub_one_eq_mod]
  exact h

/-- Bits 11..0 of a packed single-field identifier are the sequence. -/
lemma encodeID_low (e : Int) (d s : Nat) (hs : s < 2 ^ 12) :
    encodeID e d s &&& (2 ^ 12 - 1) = s := by
  rw [Nat.and_pow_two_sub_one_eq_mod, ← getSequence_eq, getSequence_encodeID e d s hs]

/-- Bits 63..22 of a packed dual-field identifier are the elapsed time. -/
lemma encodeID2_ts (e : Int) (d1 d2 s : Nat) (h0 : 0 ≤ e) (h1 : e < 2 ^ 42) (hs : s < 2 ^ 12) :
    (encodeID2 e d1 d2 s >>> 22) &&& (2 ^ 42 - 1) = e.toNat := by
  rw [Nat.and_pow_two_sub_one_eq_mod, Nat.shiftRight_eq_div_pow, encodeID2_eq e d1 d2 s hs]
  have hK1 := ite_d1_le d1
  have hK2 := ite_d2_le d2
  have h : e % 2 ^ 42 = e := by omega
  rw [h]
  omega

/-- Bits 21..17 of a packed dual-field identifier are the second
discriminator segment. -/
lemma encodeID2_high (e : Int) (d1 d2 s : Nat) (hs : s < 2 ^ 12) :
    (encodeID2 e d1 d2 s >>> 17) &&& (2 ^ 5 - 1) =
      (if d2 > maxDiscriminatorHalfBits then 0 else d2) := by
  have h := getSecondDiscriminant_encodeID2 e d1 d2 s hs
  unfold getSecondDiscriminant sequenceBits discriminatorBits at h
  rw [land_maxHalf] at h
  rw [Nat.and_pow_two_sub_one_eq_mod]
  norm_num at h
  exact h

/-- Bits 16..12 of a packed dual-field identifier are the first
discriminator segment. -/
lemma encodeID2_mid (e : Int) (d1 d2 s : Nat) (hs : s < 2 ^ 12) :
    (encodeID2 e d1 d2 s >>> 12) &&& (2 ^ 5 - 1) =
      (if d1 > maxDiscriminatorHalfBits then 0 else d1) := by
  have h := getFirstDiscriminant_encodeID2 e d1 d2 s hs
  unfold getFirstDiscriminant sequenceBits at h
  rw [land_maxHalf] at h
  rw [Nat.and_pow_two_sub_one_eq_mod]
  exact h

/-- Bits 11..0 of a packed dual-field identifier are the sequence. -/
lemma encodeID2_low (e : Int) (d1 d2 s : Nat) (hs : s < 2 ^ 12) :
    encodeID2 e d1 d2 s &&& (2 ^ 12 - 1) = s := by
  rw [Nat.and_pow_two_sub_one_eq_mod, ← getSequence_eq, getSequence_encodeID2 e d1 d2 s hs]

/-! The specification claims. -/

/-- C1: for any single- or dual-field generator instance, under a clock
whose successive millisecond readings never decrease (and, staying within
the 42 bits the timestamp field can hold, never overflow the shifted
word), calling NextID repeatedly yields pairwise distinct values and the
sequence of returned values is non-decreasing. -/
theorem C1_nextID_unique_monotone :
    (∀ (d : Nat) (tr : List (Int × Int)), goodTrace (New d) tr = true →
      (runNextID (New d) tr).Nodup ∧ List.Chain' (· ≤ ·) (runNextID (New d) tr)) ∧
    (∀ (d1 d2 : Nat) (tr : List (Int × Int)), goodTrace2 (New2 d1 d2) tr = true →
      (runNextID2 (New2 d1 d2) tr).Nodup ∧
        List.Chain' (· ≤ ·) (runNextID2 (New2 d1 d2) tr)) := by
  constructor
  · intro d tr hg
    have hinv : IDInv (New d) :=
      ⟨le_refl 0, by show (0 : Int) < 2 ^ 42; norm_num, by show (0 : Nat) < 2 ^ 12; norm_num⟩
    have hp := runNextID_pairwise tr (New d) hinv hg
    exact ⟨hp.imp (fun h => Nat.ne_of_lt h), (hp.imp fun h => Nat.le_of_lt h).chain'⟩
  · intro d1 d2 tr hg
    have hinv : ID2Inv (New2 d1 d2) :=
      ⟨le_refl 0, by show (0 : Int) < 2 ^ 42; norm_num, by show (0 : Nat) < 2 ^ 12; norm_num⟩
    have hp := runNextID2_pairwise tr (New2 d1 d2) hinv hg
    exact ⟨hp.imp (fun h => Nat.ne_of_lt h), (hp.imp fun h => Nat.le_of_lt h).chain'⟩

/-- Witness for C1 at concrete traces: two calls in the same millisecond
followed by one in a later millisecond. -/
theorem C1_witness :
    goodTrace (New 1) [(5, 0), (5, 0), (7, 0)] = true ∧
    (runNextID (New 1) [(5, 0), (5, 0), (7, 0)]).Nodup ∧
    List.Chain' (· ≤ ·) (runNextID (New 1) [(5, 0), (5, 0), (7, 0)]) ∧
    goodTrace2 (New2 1 2) [(5, 0), (6, 0)] = true ∧
    (runNextID2 (New2 1 2) [(5, 0), (6, 0)]).Nodup ∧
    List.Chain' (· ≤ ·) (runNextID2 (New2 1 2) [(5, 0), (6, 0)]) :=
  ⟨by decide,
   (C1_nextID_unique_monotone.1 1 [(5, 0), (5, 0), (7, 0)] (by decide)).1,
   (C1_nextID_unique_monotone.1 1 [(5, 0), (5, 0), (7, 0)] (by decide)).2,
   by decide,
   (C1_nextID_unique_monotone.2 1 2 [(5, 0), (6, 0)] (by decide)).1,
   (C1_nextID_unique_monotone.2 1 2 [(5, 0), (6, 0)] (by decide)).2⟩

/-- C2 counterexample: a clock that reads 10 and then regresses to 5 makes
the generator emit a second identifier whose timestamp (and timestamp
field) is strictly smaller than the first one's, because line 80 compares
the reading with the stored elapsed time by equality only, so a regressed
reading takes the else branch exactly like an advanced one (the reset of
the sequence to 0 in the second conjunct shows the same-millisecond branch
was not taken). -/
theorem C2_counterexample :
    getTimestamp defaultEpochMs (nextID (nextID (New 1) 10 0).2 5 0).1 <
      getTimestamp defaultEpochMs (nextID (New 1) 10 0).1 ∧
    (nextID (nextID (New 1) 10 0).2 5 0).2.sequence = 0 := by decide

/-- C2 amended: a clock reading strictly below the stored last timestamp is
handled identically to the advanced-clock case, not to the same-millisecond
case: the sequence resets to 0, the reading is stored, and the emitted
identifier's timestamp field equals the regressed reading, which is
strictly smaller than the previously stored timestamp. -/
theorem C2_regression_goes_backward (st : ID) (now wait : Int)
    (h0 : 0 ≤ now) (h1 : now < st.elapsedTime) (h2 : st.elapsedTime < 2 ^ 42) :
    (nextID st now wait).2.sequence = 0 ∧
    (nextID st now wait).2.elapsedTime = now ∧
    (nextID st now wait).1 >>> (sequenceBits + discriminatorBits) = now.toNat ∧
    now.toNat < st.elapsedTime.toNat := by
  have hne : now ≠ st.elapsedTime := by omega
  rcases nextID_cases st now wait with ⟨he, _, _⟩ | ⟨he, _, _⟩ | ⟨_, hrw⟩
  · exact absurd he hne
  · exact absurd he hne
  · rw [hrw]
    refine ⟨rfl, rfl, ?_, by omega⟩
    show encodeID now st.discriminator 0 >>> (sequenceBits + discriminatorBits) = now.toNat
    have h22 : sequenceBits + discriminatorBits = 22 := rfl
    rw [h22, Nat.shiftRight_eq_div_pow, encodeID_eq now st.discriminator 0 (by norm_num)]
    have hK := ite_d_le st.discriminator
    have h : now % 2 ^ 42 = now := by omega
    rw [h]
    omega

/-- Witness for the amended C2 at a concrete regressed state. -/
theorem C2_regression_witness :
    (0 : Int) ≤ 5 ∧ (5 : Int) < (10 : Int) ∧ (10 : Int) < 2 ^ 42 ∧
    ((nextID ⟨1, 3, 10, 0⟩ 5 99).2.sequence = 0 ∧
      (nextID ⟨1, 3, 10, 0⟩ 5 99).2.elapsedTime = 5 ∧
      (nextID ⟨1, 3, 10, 0⟩ 5 99).1 >>> (sequenceBits + discriminatorBits) = (5 : Int).toNat ∧
      (5 : Int).toNat < (10 : Int).toNat) :=
  ⟨by decide, by decide, by decide,
   C2_regression_goes_backward ⟨1, 3, 10, 0⟩ 5 99 (by decide) (by decide) (by decide)⟩

/-- C3 counterexample: an identifier emitted at one millisecond past the
epoch by a generator with discriminator 0 refutes the claimed layout: its
stored elapsed time is 1, yet bits 63..23 read back 0, not 1, and bits
22..12 read back 1024, not the discriminator 0 — the timestamp actually
starts at bit 22. -/
theorem C3_counterexample :
    (nextID (New 0) 1 2).2.elapsedTime = 1 ∧
    ((nextID (New 0) 1 2).1 >>> 23) &&& (2 ^ 41 - 1) ≠ 1 ∧
    ((nextID (New 0) 1 2).1 >>> 12) &&& (2 ^ 11 - 1) ≠ 0 := by decide

/-- C3 amended: in every identifier produced by either generator (with the
clock readings fitting the timestamp field), bits 63..22 (42 bits) hold the
milliseconds since the configured Epoch, bits 21..12 (10 bits) hold the
single-field discriminator segment (in the dual-field variant, bits 21..17
hold discriminator #2 and bits 16..12 discriminator #1, 5 bits each, each
zeroed when out of range), and bits 11..0 (12 bits) hold the sequence. -/
theorem C3_bit_layout (st : ID) (st2 : ID2) (now wait : Int)
    (hn0 : 0 ≤ now) (hn1 : now < 2 ^ 42) (hw0 : 0 ≤ wait) (hw1 : wait < 2 ^ 42) :
    (((nextID st now wait).1 >>> 22) &&& (2 ^ 42 - 1) =
        (nextID st now wait).2.elapsedTime.toNat ∧
      ((nextID st now wait).1 >>> 12) &&& (2 ^ 10 - 1) =
        (if st.discriminator > maxDiscriminatorBits then 0 else st.discriminator) ∧
      (nextID st now wait).1 &&& (2 ^ 12 - 1) = (nextID st now wait).2.sequence) ∧
    (((nextID2 st2 now wait).1 >>> 22) &&& (2 ^ 42 - 1) =
        (nextID2 st2 now wait).2.elapsedTime.toNat ∧
      ((nextID2 st2 now wait).1 >>> 17) &&& (2 ^ 5 - 1) =
        (if st2.discriminator2 > maxDiscriminatorHalfBits then 0 else st2.discriminator2) ∧
      ((nextID2 st2 now wait).1 >>> 12) &&& (2 ^ 5 - 1) =
        (if st2.discriminator1 > maxDiscriminatorHalfBits then 0 else st2.discriminator1) ∧
      (nextID2 st2 now wait).1 &&& (2 ^ 12 - 1) = (nextID2 st2 now wait).2.sequence) := by
  constructor
  · have hs := nextID_seq_lt st now wait
    have he : 0 ≤ (nextID st now wait).2.elapsedTime ∧ (nextID st now wait).2.elapsedTime < 2 ^ 42 := by
      rcases nextID_cases st now wait with ⟨_, _, h⟩ | ⟨_, _, h⟩ | ⟨_, h⟩ <;> rw [h] <;>
        exact ⟨by dsimp only; omega, by dsimp only; omega⟩
    rw [nextID_out st now wait]
    exact ⟨encodeID_ts _ _ _ he.1 he.2 hs, encodeID_mid _ _ _ hs, encodeID_low _ _ _ hs⟩
  · have hs := nextID2_seq_lt st2 now wait
    have he : 0 ≤ (nextID2 st2 now wait).2.elapsedTime ∧
        (nextID2 st2 now wait).2.elapsedTime < 2 ^ 42 := by
      rcases nextID2_cases st2 now wait with ⟨_, _, h⟩ | ⟨_, _, h⟩ | ⟨_, h⟩ <;> rw [h] <;>
        exact ⟨by dsimp only; omega, by dsimp only; omega⟩
    rw [nextID2_out st2 now wait]
    exact ⟨encodeID2_ts _ _ _ _ he.1 he.2 hs, encodeID2_high _ _ _ _ hs,
      encodeID2_mid _ _ _ _ hs, encodeID2_low _ _ _ _ hs⟩

/-- Witness for the amended C3 at concrete states and readings. -/
theorem C3_bit_layout_witness :
    (0 : Int) ≤ 3 ∧ (3 : Int) < 2 ^ 42 ∧ (0 : Int) ≤ 4 ∧ (4 : Int) < 2 ^ 42 ∧
    ((((nextID ⟨7, 0, 0, 0⟩ 3 4).1 >>> 22) &&& (2 ^ 42 - 1) =
        (nextID ⟨7, 0, 0, 0⟩ 3 4).2.elapsedTime.toNat ∧
      ((nextID ⟨7, 0, 0, 0⟩ 3 4).1 >>> 12) &&& (2 ^ 10 - 1) =
        (if (7 : Nat) > maxDiscriminatorBits then 0 else 7) ∧
      (nextID ⟨7, 0, 0, 0⟩ 3 4).1 &&& (2 ^ 12 - 1) = (nextID ⟨7, 0, 0, 0⟩ 3 4).2.sequence) ∧
    ((((nextID2 ⟨2, 9, 0, 0⟩ 3 4).1 >>> 22) &&& (2 ^ 42 - 1) =
        (nextID2 ⟨2, 9, 0, 0⟩ 3 4).2.elapsedTime.toNat ∧
      ((nextID2 ⟨2, 9, 0, 0⟩ 3 4).1 >>> 17) &&& (2 ^ 5 - 1) =
        (if (9 : Nat) > maxDiscriminatorHalfBits then 0 else 9) ∧
      ((nextID2 ⟨2, 9, 0, 0⟩ 3 4).1 >>> 12) &&& (2 ^ 5 - 1) =
        (if (2 : Nat) > maxDiscriminatorHalfBits then 0 else 2) ∧
      (nextID2 ⟨2, 9, 0, 0⟩ 3 4).1 &&& (2 ^ 12 - 1) = (nextID2 ⟨2, 9, 0, 0⟩ 3 4).2.sequence))) :=
  ⟨by decide, by decide, by decide, by decide,
   C3_bit_layout ⟨7, 0, 0, 0⟩ ⟨2, 9, 0, 0⟩ 3 4 (by decide) (by decide) (by decide) (by decide)⟩

/-- C4: the discriminator of a single-field generator round-trips through
NextID and Parse exactly when it is at most 1023 and parses back as zero
otherwise; in the dual-field variant each discriminator independently
round-trips when at most 31 and parses back as zero otherwise. -/
theorem C4_discriminator_roundtrip (st : ID) (st2 : ID2) (now wait : Int) (epochMs : Int) :
    (Parse epochMs (nextID st now wait).1).Discriminator =
      (if st.discriminator ≤ 1023 then st.discriminator else 0) ∧
    (Parse2 epochMs (nextID2 st2 now wait).1).Discriminator1 =
      (if st2.discriminator1 ≤ 31 then st2.discriminator1 else 0) ∧
    (Parse2 epochMs (nextID2 st2 now wait).1).Discriminator2 =
      (if st2.discriminator2 ≤ 31 then st2.discriminator2 else 0) := by
  refine ⟨?_, ?_, ?_⟩
  · show getDiscriminant (nextID st now wait).1 =
      (if st.discriminator ≤ 1023 then st.discriminator else 0)
    rw [nextID_out st now wait,
      getDiscriminant_encodeID _ _ _ (nextID_seq_lt st now wait)]
    by_cases h : st.discriminator ≤ 1023
    · rw [if_neg (show ¬ st.discriminator > maxDiscriminatorBits by
        unfold maxDiscriminatorBits; omega), if_pos h]
    · rw [if_pos (show st.discriminator > maxDiscriminatorBits by
        unfold maxDiscriminatorBits; omega), if_neg h]
  · show getFirstDiscriminant (nextID2 st2 now wait).1 =
      (if st2.discriminator1 ≤ 31 then st2.discriminator1 else 0)
    rw [nextID2_out st2 now wait,
      getFirstDiscriminant_encodeID2 _ _ _ _ (nextID2_seq_lt st2 now wait)]
    by_cases h : st2.discriminator1 ≤ 31
    · rw [if_neg (show ¬ st2.discriminator1 > maxDiscriminatorHalfBits by
        unfold maxDiscriminatorHalfBits; omega), if_pos h]
    · rw [if_pos (show st2.discriminator1 > maxDiscriminatorHalfBits by
        unfold maxDiscriminatorHalfBits; omega), if_neg h]
  · show getSecondDiscriminant (nextID2 st2 now wait).1 =
      (if st2.discriminator2 ≤ 31 then st2.discriminator2 else 0)
    rw [nextID2_out st2 now wait,
      getSecondDiscriminant_encodeID2 _ _ _ _ (nextID2_seq_lt st2 now wait)]
    by_cases h : st2.discriminator2 ≤ 31
    · rw [if_neg (show ¬ st2.discriminator2 > maxDiscriminatorHalfBits by
        unfold maxDiscriminatorHalfBits; omega), if_pos h]
    · rw [if_pos (show st2.discriminator2 > maxDiscriminatorHalfBits by
        unfold maxDiscriminatorHalfBits; omega), if_neg h]

/-- C5: under the default epoch 2012-03-28T00:00:00 UTC, the two known
vectors decode to the documented components. -/
theorem C5_known_vectors :
    (Parse defaultEpochMs 1292053924173320192).Sequence = 0 ∧
    (Parse defaultEpochMs 1292053924173320192).Discriminator = 1 ∧
    (Parse defaultEpochMs 1292053924173320192).Timestamp = 1640942460724 ∧
    (Parse2 defaultEpochMs 1292065108376162304).Sequence = 0 ∧
    (Parse2 defaultEpochMs 1292065108376162304).Discriminator1 = 1 ∧
    (Parse2 defaultEpochMs 1292065108376162304).Discriminator2 = 24 ∧
    (Parse2 defaultEpochMs 1292065108376162304).Timestamp = 1640945127245 := by
  refine ⟨?_, ?_, ?_, ?_, ?_, ?_, ?_⟩ <;> decide

/-- C6: SetEpoch fails with the zero-epoch error exactly on the zero
instant (checked first), fails with the future-epoch error exactly on a
nonzero candidate strictly later than the current wall-clock time, leaves
the configured epoch unchanged in both failure cases, and commits the
candidate on success. -/
theorem C6_setEpoch_spec (epoch now e : Int) :
    ((SetEpoch epoch now e).1 = some EpochError.epochIsZero ↔ e = 0) ∧
    ((SetEpoch epoch now e).1 = some EpochError.epochFuture ↔ e ≠ 0 ∧ now < e) ∧
    ((SetEpoch epoch now e).1 ≠ none → (SetEpoch epoch now e).2 = epoch) ∧
    ((SetEpoch epoch now e).1 = none → (SetEpoch epoch now e).2 = e) := by
  unfold SetEpoch
  by_cases h1 : e = 0
  · simp [h1]
  · by_cases h2 : now < e
    · simp [h1, h2]
    · simp [h1, h2]

/-- Witness for C6 at a zero candidate, a future candidate and a valid
candidate. -/
theorem C6_setEpoch_witness :
    (SetEpoch 100 50 0).1 = some EpochError.epochIsZero ∧
    (SetEpoch 100 50 0).2 = 100 ∧
    (SetEpoch 100 50 80).1 = some EpochError.epochFuture ∧
    (SetEpoch 100 50 80).2 = 100 ∧
    (SetEpoch 100 50 30).1 = none ∧
    (SetEpoch 100 50 30).2 = 30 :=
  ⟨(C6_setEpoch_spec 100 50 0).1.mpr rfl,
   (C6_setEpoch_spec 100 50 0).2.2.1 (by decide),
   (C6_setEpoch_spec 100 50 80).2.1.mpr (by decide),
   (C6_setEpoch_spec 100 50 80).2.2.1 (by decide),
   by decide,
   (C6_setEpoch_spec 100 50 30).2.2.2 (by decide)⟩

/-- C7: from a fresh generator, three NextID calls observing the same
clock millisecond (any instant strictly after the epoch) parse back as
sequences 0, 1, 2, and a fourth call observing a strictly later
millisecond parses back as sequence 0. -/
theorem C7_sequence_cycle (d : Nat) (t u : Int) (h0 : 0 < t) (h1 : t < u) :
    getSequence (nextID (New d) t 0).1 = 0 ∧
    getSequence (nextID (nextID (New d) t 0).2 t 0).1 = 1 ∧
    getSequence (nextID (nextID (nextID (New d) t 0).2 t 0).2 t 0).1 = 2 ∧
    getSequence (nextID (nextID (nextID (nextID (New d) t 0).2 t 0).2 t 0).2 u 0).1 = 0 := by
  have ht : t ≠ 0 := by omega
  have hu : u ≠ t := by omega
  have e1 : nextID (New d) t 0 = (encodeID t d 0,
      { discriminator := d, sequence := 0, elapsedTime := t, lastID := 0 }) := by
    simp [nextID, New, ht]
  have e2 : nextID { discriminator := d, sequence := 0, elapsedTime := t, lastID := 0 } t 0 =
      (encodeID t d 1,
        { discriminator := d, sequence := 1, elapsedTime := t, lastID := 0 }) := by
    simp [nextID, maxSeqBits]
  have h2m : (2 : Nat) &&& 4095 = 2 := by decide
  have e3 : nextID { discriminator := d, sequence := 1, elapsedTime := t, lastID := 0 } t 0 =
      (encodeID t d 2,
        { discriminator := d, sequence := 2, elapsedTime := t, lastID := 0 }) := by
    simp [nextID, maxSeqBits, h2m]
  have e4 : nextID { discriminator := d, sequence := 2, elapsedTime := t, lastID := 0 } u 0 =
      (encodeID u d 0,
        { discriminator := d, sequence := 0, elapsedTime := u, lastID := 0 }) := by
    simp [nextID, hu]
  rw [e1]
  dsimp only
  rw [e2]
  dsimp only
  rw [e3]
  dsimp only
  rw [e4]
  dsimp only
  exact ⟨getSequence_encodeID t d 0 (by norm_num), getSequence_encodeID t d 1 (by norm_num),
    getSequence_encodeID t d 2 (by norm_num), getSequence_encodeID u d 0 (by norm_num)⟩

/-- Witness for C7 with the same millisecond 5 and the later millisecond 6. -/
theorem C7_witness :
    (0 : Int) < 5 ∧ (5 : Int) < 6 ∧
    (getSequence (nextID (New 1) 5 0).1 = 0 ∧
      getSequence (nextID (nextID (New 1) 5 0).2 5 0).1 = 1 ∧
      getSequence (nextID (nextID (nextID (New 1) 5 0).2 5 0).2 5 0).1 = 2 ∧
      getSequence (nextID (nextID (nextID (nextID (New 1) 5 0).2 5 0).2 5 0).2 6 0).1 = 0) :=
  ⟨by decide, by decide, C7_sequence_cycle 1 5 6 (by decide) (by decide)⟩

/-- C8: for every 64-bit identifier, the decoded timestamp is the value of
bits 63..22 plus the configured epoch in milliseconds since the Unix epoch
(any epoch a Go time.Time can express satisfies the millisecond bound, as
UnixNano is a 64-bit nanosecond count), so decoding the same identifier
under two committed epochs shifts the result by exactly their difference. -/
theorem C8_timestamp_decode (id : Nat) (e1 e2 : Int)
    (hid : id < 2 ^ 64)
    (h1a : -(2 ^ 43) ≤ e1) (h1b : e1 ≤ 2 ^ 43)
    (h2a : -(2 ^ 43) ≤ e2) (h2b : e2 ≤ 2 ^ 43) :
    getTimestamp e1 id = ((id >>> 22 : Nat) : Int) + e1 ∧
    getTimestamp e1 id - getTimestamp e2 id = e1 - e2 := by
  have hsh : id >>> 22 < 2 ^ 42 := by
    rw [Nat.shiftRight_eq_div_pow]
    omega
  have key : ∀ e : Int, -(2 ^ 43) ≤ e → e ≤ 2 ^ 43 →
      getTimestamp e id = ((id >>> 22 : Nat) : Int) + e := by
    intro e ha hb
    have h22 : sequenceBits + discriminatorBits = 22 := rfl
    unfold getTimestamp int64Add wrap64 int64OfUInt64
    rw [h22, if_pos (show id >>> 22 < 2 ^ 63 by omega)]
    omega
  refine ⟨key e1 h1a h1b, ?_⟩
  rw [key e1 h1a h1b, key e2 h2a h2b]
  ring

/-- Witness for C8 at the known vector under the default epoch and an
alternative epoch 1000 ms after the Unix epoch. -/
theorem C8_witness :
    (1292053924173320192 : Nat) < 2 ^ 64 ∧
    -(2 ^ 43) ≤ defaultEpochMs ∧ defaultEpochMs ≤ 2 ^ 43 ∧
    -(2 ^ 43) ≤ (1000 : Int) ∧ (1000 : Int) ≤ 2 ^ 43 ∧
    (getTimestamp defaultEpochMs 1292053924173320192 =
        ((1292053924173320192 >>> 22 : Nat) : Int) + defaultEpochMs ∧
      getTimestamp defaultEpochMs 1292053924173320192 -
        getTimestamp 1000 1292053924173320192 = defaultEpochMs - 1000) :=
  ⟨by decide, by decide, by decide, by decide, by decide,
   C8_timestamp_decode 1292053924173320192 defaultEpochMs 1000
     (by decide) (by decide) (by decide) (by decide) (by decide)⟩

/-- C9: Parse and Parse2 agree on the timestamp and sequence of every
input, and the 10-bit discriminator decomposes exactly into the two 5-bit
halves of the dual-field decoding. -/
theorem C9_parse_parse2_agree (id : Nat) (epochMs : Int) :
    (Parse epochMs id).Timestamp = (Parse2 epochMs id).Timestamp ∧
    (Parse epochMs id).Sequence = (Parse2 epochMs id).Sequence ∧
    (Parse epochMs id).Discriminator =
      32 * (Parse2 epochMs id).Discriminator2 + (Parse2 epochMs id).Discriminator1 := by
  refine ⟨rfl, rfl, ?_⟩
  show getDiscriminant id = 32 * getSecondDiscriminant id + getFirstDiscriminant id
  have g1 : getDiscriminant id = (id >>> 12) % 2 ^ 10 := by
    unfold getDiscriminant sequenceBits
    exact land_maxDisc _
  have g2 : getFirstDiscriminant id = (id >>> 12) % 2 ^ 5 := by
    unfold getFirstDiscriminant sequenceBits
    exact land_maxHalf _
  have g3 : getSecondDiscriminant id = (id >>> 17) % 2 ^ 5 := by
    unfold getSecondDiscriminant sequenceBits discriminatorBits
    rw [land_maxHalf]
  rw [g1, g2, g3, Nat.shiftRight_eq_div_pow, Nat.shiftRight_eq_div_pow]
  omega

/-- C10: the components parsed from any 64-bit input are within their field
bounds. -/
theorem C10_parsed_bounds (id : Nat) (epochMs : Int) :
    (Parse epochMs id).Sequence ≤ 4095 ∧
    (Parse epochMs id).Discriminator ≤ 1023 ∧
    (Parse2 epochMs id).Discriminator1 ≤ 31 ∧
    (Parse2 epochMs id).Discriminator2 ≤ 31 := by
  refine ⟨?_, ?_, ?_, ?_⟩
  · show getSequence id ≤ 4095
    rw [getSequence_eq]
    omega
  · show getDiscriminant id ≤ 1023
    exact Nat.and_le_right
  · show getFirstDiscriminant id ≤ 31
    exact Nat.and_le_right
  · show getSecondDiscriminant id ≤ 31
    exact Nat.and_le_right

end Snowflake
